import Mathlib

/-!
Shallow embedding of `src/minimal_version.py` (fire lookout game).

Modelling conventions:
* Python float arithmetic is modelled as exact arithmetic over `ℚ`;
  Python `int(x)` (truncation toward zero) is `pyint : ℚ → ℤ`;
  Python `%` on integers (sign of the divisor, here always positive) is `Int.emod`;
  `math.sqrt d < 50` on a nonnegative integer `d` is modelled by the equivalent
  integer comparison `d < 2500` (both sides are exact and `sqrt` is monotone).
* pygame surfaces are modelled by `Mask`: a width, a height and an RGB pixel
  function.  `mask.get_at` is only ever called with in-range coordinates
  (the x argument is reduced `% width` first and y ranges over `[0, height)`),
  so the `except IndexError: continue` branches in the source are unreachable
  and are not modelled.
* `pygame.time.get_ticks()` values are passed in explicitly as `now`.
* The process-wide random weather and the module-level surfaces/state become
  explicit parameters (`GameCtx`); `random.randint` / `random.choice` draws
  become an explicit stream of `Draw` records, one per spawn attempt, with
  Python's inclusive `randint` bounds captured by `DrawValid`.
-/

/-- Weather condition, chosen once per process from
`weather_conditions = ["Clear", "Rainy", "Windy", "Hot"]`. -/
inductive Weather
  | Clear
  | Rainy
  | Windy
  | Hot
deriving DecidableEq

/-- Parallax depth band of a fire: `self.layer = 'far' if distance > 150 else 'mid'`. -/
inductive Layer
  | mid
  | far
deriving DecidableEq

/-- A pygame surface used as a terrain mask: width, height and per-pixel RGB. -/
structure Mask where
  width : ℕ
  height : ℕ
  pixel : ℕ → ℕ → ℕ × ℕ × ℕ

/-- Python `int()` applied to a rational: truncation toward zero
(`⌈q⌉ = -⌊-q⌋` for negative `q`, `⌊q⌋` otherwise). -/
def pyint (q : ℚ) : ℤ :=
  if q < 0 then -⌊-q⌋ else ⌊q⌋

/-- Brightness of an RGB pixel: `(pixel[0] + pixel[1] + pixel[2]) / 3`. -/
def brightness (p : ℕ × ℕ × ℕ) : ℚ :=
  ((p.1 : ℚ) + p.2.1 + p.2.2) / 3

/-- Sum of the RGB components; `brightness p < 200` iff `pixel_sum p < 600`
(see `brightness_lt_200_iff`), and the `ℕ` form keeps scans computable. -/
def pixel_sum (p : ℕ × ℕ × ℕ) : ℕ :=
  p.1 + p.2.1 + p.2.2

/-- A fire entity (class `Fire`).  `layer` is derived from `distance`
(see `Fire.layer`); the sprite-scaling fields are visual only and omitted. -/
structure Fire where
  azimuth : ℕ
  distance : ℕ
  terrain_offset : ℕ
  reported : Bool
  lifetime : ℚ
  spawn_time : ℕ
deriving DecidableEq

/-- Source: `self.layer = 'far' if distance > 150 else 'mid'` (fixed at
construction; `distance` is immutable, so a derived function is faithful). -/
def Fire.layer (f : Fire) : Layer :=
  if 150 < f.distance then Layer.far else Layer.mid

/-- Lifetime multiplier applied in `Fire.__init__`:
Rainy `* 0.5`, Windy `* 1.5`, Hot `* 2.0`, otherwise (Clear) unscaled. -/
def weather_lifetime_mult : Weather → ℚ
  | Weather.Rainy => 0.5
  | Weather.Windy => 1.5
  | Weather.Hot => 2.0
  | Weather.Clear => 1

/-- Constructor `Fire.__init__(azimuth, distance, base_lifetime)`: the weather scales the
base lifetime; `terrain_offset = random.randint(0, 80)` is passed in as the
value drawn; `spawn_time = pygame.time.get_ticks()` is passed in as `now`. -/
def mkFire (azimuth distance base_lifetime terrain_offset : ℕ)
    (weather : Weather) (now : ℕ) : Fire :=
  { azimuth := azimuth
    distance := distance
    terrain_offset := terrain_offset
    reported := false
    lifetime := (base_lifetime : ℚ) * weather_lifetime_mult weather
    spawn_time := now }

/-- Method `Fire.is_expired`: `pygame.time.get_ticks() - self.spawn_time > self.lifetime`. -/
def is_expired (f : Fire) (now : ℚ) : Bool :=
  decide (f.lifetime < now - (f.spawn_time : ℚ))

/-- The module-level state a single frame reads: the two terrain masks, the
weather, the player bearing and the crosshair position. -/
structure GameCtx where
  background_far_mask : Mask
  background_mid_mask : Mask
  weather : Weather
  player_azimuth : ℕ
  crosshair_x : ℕ
  crosshair_y : ℕ

/-- Parallax offset for a wide layer at scroll factor 1:
`int((player_azimuth / 360) * mask_width * 1) % mask_width`
(the argument is nonnegative, so `int` is the floor, i.e. `ℕ` division). -/
def parallax_offset (player_azimuth width : ℕ) : ℕ :=
  (player_azimuth * width / 360) % width

/-- The mask column sampled for a screen column in
`Fire.get_terrain_height_at_screen_x`: narrow masks
(`mask_width <= SCREEN_WIDTH`) map the screen proportionally,
`int((screen_x / SCREEN_WIDTH) * mask_width) % mask_width`; wide masks invert
the parallax scroll, `(parallax_offset + screen_x) % mask_width`. -/
def mask_x_for_screen (mask : Mask) (player_azimuth screen_x : ℕ) : ℕ :=
  if mask.width ≤ 800 then
    (screen_x * mask.width / 800) % mask.width
  else
    (parallax_offset player_azimuth mask.width + screen_x) % mask.width

/-- The top-to-bottom scan shared by `get_terrain_height_at_screen_x` and
`has_terrain_at_azimuth`: the first row whose pixel has brightness `< 200`
(stated via the equivalent integer comparison `pixel_sum < 600`). -/
def first_terrain_row (mask : Mask) (x : ℕ) : Option ℕ :=
  (List.range mask.height).find? (fun y => decide (pixel_sum (mask.pixel x y) < 600))

/-- Method `Fire.get_terrain_height_at_screen_x(screen_x, mask, player_azimuth)`:
the first terrain row is rescaled to screen space,
`int((y / mask_height) * SCREEN_HEIGHT)`, and the fire's persistent
`terrain_offset` is added; with no terrain the fallback row is
`int(SCREEN_HEIGHT * 0.7) = 420` (far) or `int(SCREEN_HEIGHT * 0.85) = 510`
(mid), plus the same offset. -/
def get_terrain_height_at_screen_x (f : Fire) (screen_x : ℕ) (mask : Mask)
    (player_azimuth : ℕ) : ℕ :=
  match first_terrain_row mask (mask_x_for_screen mask player_azimuth screen_x) with
  | some y => y * 600 / mask.height + f.terrain_offset
  | none => (if f.layer = Layer.far then 420 else 510) + f.terrain_offset

/-- Signed angular difference used by `Fire.get_screen_pos`:
`(self.azimuth - player_azimuth + 180) % 360 - 180`, in `[-180, 179]`. -/
def rel_angle (azimuth player_azimuth : ℕ) : ℤ :=
  ((azimuth : ℤ) - (player_azimuth : ℤ) + 180).emod 360 - 180

/-- Method `Fire.get_screen_pos(player_azimuth)`: `None` when
`abs(relative_angle) > FOV / 2` (FOV = 150); otherwise
`x = int((relative_angle + FOV / 2) / FOV * SCREEN_WIDTH)` (the argument is
in `[0, 150]`, so `int` is the floor, i.e. `ℕ` division after `toNat`) and
`y` comes from the layer's mask via `get_terrain_height_at_screen_x`. -/
def get_screen_pos (c : GameCtx) (f : Fire) (player_azimuth : ℕ) : Option (ℕ × ℕ) :=
  let relative_angle := rel_angle f.azimuth player_azimuth
  if 75 < relative_angle.natAbs then
    none
  else
    let x : ℕ := (relative_angle + 75).toNat * 800 / 150
    let mask := if f.layer = Layer.far then c.background_far_mask else c.background_mid_mask
    some (x, get_terrain_height_at_screen_x f x mask player_azimuth)

/-- Crosshair aim bearing, computed identically on source lines 298 and 306:
`int((crosshair_pos[0] / SCREEN_WIDTH) * FOV + (player_azimuth - FOV // 2)) % 360`
with `SCREEN_WIDTH = 800`, `FOV = 150`, `FOV // 2 = 75`. -/
def cross_azimuth (cx player_azimuth : ℕ) : ℤ :=
  (pyint ((cx : ℚ) / 800 * 150 + ((player_azimuth : ℚ) - 75))).emod 360

/-- Crosshair aim elevation (source lines 299 and 321):
`int((300 - crosshair_pos[1]) / (600 / 90))`. -/
def cross_elevation (cy : ℕ) : ℤ :=
  pyint (((300 : ℚ) - (cy : ℚ)) / (600 / 90))

/-- Hit test applied to one fire inside the `check_report` loop: the fire has
a screen position, is unreported, its bearing is within 15° of the aim
bearing (`abs((fire.azimuth - cross_azimuth + 180) % 360 - 180) < 15`) and
its screen position is within 50 pixels of the crosshair
(`math.sqrt((fire_x - cross_x)**2 + (fire_y - cross_y)**2) < 50`, modelled as
the squared comparison `< 2500`). -/
def reportHit (c : GameCtx) (f : Fire) : Bool :=
  match get_screen_pos c f c.player_azimuth with
  | none => false
  | some (fire_x, fire_y) =>
    let angle_diff : ℕ :=
      (((f.azimuth : ℤ) - cross_azimuth c.crosshair_x c.player_azimuth + 180).emod 360
        - 180).natAbs
    let dist_sq : ℤ :=
      ((fire_x : ℤ) - (c.crosshair_x : ℤ)) ^ 2 + ((fire_y : ℤ) - (c.crosshair_y : ℤ)) ^ 2
    !f.reported && decide (angle_diff < 15) && decide (dist_sq < 2500)

/-- The fire-list scan of `check_report`: the first fire passing `reportHit`
has its `reported` flag set and the loop `break`s; the returned flag records
whether a report fired. -/
def check_report_go (c : GameCtx) : List Fire → List Fire × Bool
  | [] => ([], false)
  | f :: fs =>
    if reportHit c f then
      ({ f with reported := true } :: fs, true)
    else
      let r := check_report_go c fs
      (f :: r.1, r.2)

/-- Function `check_report()`: scans `fires`; on the first hit it marks the fire and
appends `(cross_azimuth, cross_y)` to `reports` (the printed declination is
not stored); with no hit both lists are unchanged. -/
def check_report (c : GameCtx) (fires : List Fire) (reports : List (ℤ × ℕ)) :
    List Fire × List (ℤ × ℕ) :=
  let r := check_report_go c fires
  (r.1,
   if r.2 then
     reports ++ [(cross_azimuth c.crosshair_x c.player_azimuth, c.crosshair_y)]
   else reports)

/-- Function `has_terrain_at_azimuth(azimuth, mask, player_azimuth=0)`: narrow masks
use `int((azimuth / 360) * mask_width) % mask_width`; wide masks add the
parallax offset, `(int((azimuth / 360) * mask_width) + parallax_offset)
% mask_width`; then the rows are scanned for a pixel of brightness `< 200`.
The Python default argument `player_azimuth=0` is passed explicitly by
callers here. -/
def has_terrain_at_azimuth (azimuth : ℕ) (mask : Mask) (player_azimuth : ℕ) : Bool :=
  let x :=
    if mask.width ≤ 800 then
      (azimuth * mask.width / 360) % mask.width
    else
      (azimuth * mask.width / 360 + parallax_offset player_azimuth mask.width) % mask.width
  (List.range mask.height).any (fun y => decide (pixel_sum (mask.pixel x y) < 600))

/-- The random values one spawn attempt may consume:
`azimuth = random.randint(0, 359)`, `distance = random.choice([100, 200])`,
`base_lifetime = random.randint(10000, 50000)` and, inside `Fire.__init__`,
`terrain_offset = random.randint(0, 80)` (the last two are drawn only on a
successful attempt; carrying them per attempt loses no generality because
the stream is universally quantified). -/
structure Draw where
  azimuth : ℕ
  distance : ℕ
  base_lifetime : ℕ
  terrain_offset : ℕ
deriving DecidableEq

/-- Ranges guaranteed by Python's (inclusive) `randint` and `choice` for the
values of one attempt. -/
def DrawValid (d : Draw) : Prop :=
  d.azimuth ≤ 359 ∧ (d.distance = 100 ∨ d.distance = 200) ∧
    10000 ≤ d.base_lifetime ∧ d.base_lifetime ≤ 50000 ∧ d.terrain_offset ≤ 80

instance : DecidablePred DrawValid := fun d => by
  unfold DrawValid
  infer_instance

/-- The attempt loop of `generate_fire` (`while attempts < max_attempts` with
`max_attempts = 20`): each attempt draws an azimuth and a distance, checks
terrain on the matching mask (`background_mid_mask` if `distance == 100` else
`background_far_mask`) with the default `player_azimuth=0`, and on success
builds the `Fire`; exhausting the bound yields nothing (the source only
prints a diagnostic). -/
def generate_fire_go (c : GameCtx) (now : ℕ) : ℕ → List Draw → Option Fire
  | 0, _ => none
  | _ + 1, [] => none
  | n + 1, d :: ds =>
    let mask := if d.distance = 100 then c.background_mid_mask else c.background_far_mask
    if has_terrain_at_azimuth d.azimuth mask 0 then
      some (mkFire d.azimuth d.distance d.base_lifetime d.terrain_offset c.weather now)
    else
      generate_fire_go c now n ds

/-- Function `generate_fire()`: on a successful attempt the new fire is appended to
the live list (`fires.append(fire)`); otherwise the list is unchanged. -/
def generate_fire (c : GameCtx) (now : ℕ) (draws : List Draw) (fires : List Fire) :
    List Fire :=
  match generate_fire_go c now 20 draws with
  | some f => fires ++ [f]
  | none => fires

/-- The expiry sweep shared by `draw_far` and `draw_mid`: fires of the given
layer that are expired are collected and removed; everything else stays. -/
def sweep_layer (l : Layer) (now : ℚ) (fires : List Fire) : List Fire :=
  fires.filter (fun f => !(decide (f.layer = l) && is_expired f now))

/-- Mask column rendered at screen column `x` by `draw_parallax_layer` for a
wide image at scroll factor 1: the image is blitted at `-offset` (covering
screen columns `[0, width - offset)` with image columns `offset + x`) and at
`-offset + width` (covering `[width - offset, ...)` with image columns
`offset + x - width`). -/
def render_column (player_azimuth width x : ℕ) : ℕ :=
  let offset := parallax_offset player_azimuth width
  if x + offset < width then x + offset else x + offset - width

/-! Helper lemmas and concrete sample objects. -/

/-- The source's brightness test `(r + g + b) / 3 < 200` is the integer test
`r + g + b < 600`. -/
theorem brightness_lt_200_iff (p : ℕ × ℕ × ℕ) : brightness p < 200 ↔ pixel_sum p < 600 := by
  unfold brightness pixel_sum
  rw [div_lt_iff₀ (by norm_num : (0 : ℚ) < 3)]
  norm_cast

/-- Python `int()` agrees with the floor on nonnegative arguments. -/
theorem pyint_of_nonneg {q : ℚ} (h : 0 ≤ q) : pyint q = ⌊q⌋ := by
  unfold pyint
  rw [if_neg (not_lt.mpr h)]

/-- All-dark 1×1 mask: every column has terrain at row 0. -/
def darkMask : Mask := ⟨1, 1, fun _ _ => (0, 0, 0)⟩

/-- All-dark mask wider than the 800-pixel screen. -/
def wideMask : Mask := ⟨1000, 1, fun _ _ => (0, 0, 0)⟩

/-- Concrete frame state: dark masks, clear weather, bearing 0, crosshair at
(400, 100). -/
def ctx0 : GameCtx := ⟨darkMask, darkMask, Weather.Clear, 0, 400, 100⟩

/-- An unreported mid-layer fire dead ahead whose terrain offset puts it at
screen position (400, 100) under `ctx0`. -/
def fire0 : Fire := ⟨0, 100, 100, false, 1000, 0⟩

/-- A far-layer fire with lifetime 10 ms spawned at tick 0. -/
def fire1 : Fire := ⟨0, 200, 0, false, 10, 0⟩

/-- C6: for a mask wider than the screen, the column sampled by the
screen-to-mask query `(parallax_offset + screen_x) % W` is exactly the mask
column that the forward parallax render (scroll factor 1, blits at `-offset`
and `-offset + W`) places at that pixel column. -/
theorem render_query_round_trip (mask : Mask) (player_azimuth x : ℕ)
    (hW : 800 < mask.width) (hx : x < 800) :
    render_column player_azimuth mask.width x = mask_x_for_screen mask player_azimuth x := by
  have hW0 : 0 < mask.width := by omega
  have hoff : parallax_offset player_azimuth mask.width < mask.width :=
    Nat.mod_lt _ hW0
  unfold render_column mask_x_for_screen
  rw [if_neg (by omega : ¬ mask.width ≤ 800)]
  set o := parallax_offset player_azimuth mask.width with ho
  by_cases hcase : x + o < mask.width
  · rw [if_pos hcase, Nat.mod_eq_of_lt (by omega)]
    omega
  · rw [if_neg hcase, Nat.mod_eq_sub_mod (by omega : mask.width ≤ o + x),
      Nat.mod_eq_of_lt (by omega)]
    omega

/-- Witness for C6 at a concrete wide mask, bearing and screen column. -/
theorem render_query_round_trip_witness :
    render_column 90 wideMask.width 5 = mask_x_for_screen wideMask 90 5 :=
  render_query_round_trip wideMask 90 5 (by decide) (by decide)

/-- C8: a fire is expired exactly when `now - spawn_time > lifetime`; in
particular it is expired at `now = spawn_time + lifetime + 1` and not at
`now = spawn_time + lifetime - 1`; and the per-layer sweep of
`draw_far`/`draw_mid` removes a live fire only if it is expired. -/
theorem fire_expiry_spec (f : Fire) :
    (∀ now : ℚ, is_expired f now = true ↔ f.lifetime < now - (f.spawn_time : ℚ))
    ∧ is_expired f ((f.spawn_time : ℚ) + f.lifetime + 1) = true
    ∧ is_expired f ((f.spawn_time : ℚ) + f.lifetime - 1) = false
    ∧ ∀ (l : Layer) (now : ℚ) (fires : List Fire),
        f ∈ fires → f ∉ sweep_layer l now fires → is_expired f now = true := by
  refine ⟨fun now => ?_, ?_, ?_, ?_⟩
  · simp [is_expired]
  · simp only [is_expired, decide_eq_true_eq]
    linarith
  · simp only [is_expired, decide_eq_false_iff_not, not_lt]
    linarith
  · intro l now fires hmem hnot
    by_cases hexp : is_expired f now = true
    · exact hexp
    · exfalso
      apply hnot
      rw [sweep_layer, List.mem_filter]
      refine ⟨hmem, ?_⟩
      rw [Bool.not_eq_true] at hexp
      simp [hexp]

/-- Witness for C8: `fire1` (lifetime 10, spawned at 0) is removed by the far
sweep at tick 20, and indeed is expired there. -/
theorem fire_expiry_witness : is_expired fire1 20 = true := by
  have h1 : is_expired fire1 20 = true := by
    simp only [is_expired, fire1, decide_eq_true_eq]
    norm_num
  have hl : fire1.layer = Layer.far := rfl
  have hsweep : sweep_layer Layer.far 20 [fire1] = [] := by
    simp [sweep_layer, h1, hl]
  exact (fire_expiry_spec fire1).2.2.2 Layer.far 20 [fire1] (List.mem_singleton_self _)
    (by rw [hsweep]; exact List.not_mem_nil _)

/-- C10: the spawner's terrain check always runs with the Python default
`player_azimuth=0`, so two frame states that agree on the masks and the
weather — but may differ in the player's current view bearing (and anything
else) — produce identical spawn results from the same random draws. -/
theorem generate_fire_view_independent (c c' : GameCtx) (now : ℕ) (draws : List Draw)
    (fires : List Fire)
    (hfar : c.background_far_mask = c'.background_far_mask)
    (hmid : c.background_mid_mask = c'.background_mid_mask)
    (hw : c.weather = c'.weather) :
    generate_fire c now draws fires = generate_fire c' now draws fires := by
  have hgo : ∀ (n : ℕ) (ds : List Draw),
      generate_fire_go c now n ds = generate_fire_go c' now n ds := by
    intro n
    induction n with
    | zero => intro ds; rfl
    | succ n ih =>
      intro ds
      cases ds with
      | nil => rfl
      | cons d ds =>
        simp only [generate_fire_go, hfar, hmid, hw, ih]
  unfold generate_fire
  rw [hgo]

/-- Witness for C10: view bearings 0 and 123 over the same wide mask give the
same spawn result. -/
theorem generate_fire_view_independent_witness :
    generate_fire ⟨wideMask, wideMask, Weather.Clear, 0, 0, 0⟩ 0 [⟨0, 100, 20000, 0⟩] []
      = generate_fire ⟨wideMask, wideMask, Weather.Clear, 123, 0, 0⟩ 0 [⟨0, 100, 20000, 0⟩] [] :=
  generate_fire_view_independent _ _ 0 [⟨0, 100, 20000, 0⟩] [] rfl rfl rfl

/-- Scan lemma: when no fire passes the hit test, the scan changes nothing
and reports no hit. -/
theorem check_report_go_none (c : GameCtx) (fires : List Fire)
    (h : ∀ f ∈ fires, reportHit c f = false) :
    check_report_go c fires = (fires, false) := by
  induction fires with
  | nil => rfl
  | cons f fs ih =>
    have hf : reportHit c f = false := h f (List.mem_cons_self f fs)
    have ih' := ih (fun g hg => h g (List.mem_cons_of_mem f hg))
    simp [check_report_go, hf, ih']

/-- Scan lemma: the first fire passing the hit test is marked, the suffix is
left untouched, and a hit is reported. -/
theorem check_report_go_found (c : GameCtx) (l₁ : List Fire) (f : Fire) (l₂ : List Fire)
    (h₁ : ∀ g ∈ l₁, reportHit c g = false) (hf : reportHit c f = true) :
    check_report_go c (l₁ ++ f :: l₂) = (l₁ ++ { f with reported := true } :: l₂, true) := by
  induction l₁ with
  | nil => simp [check_report_go, hf]
  | cons g l₁ ih =>
    have hg : reportHit c g = false := h₁ g (List.mem_cons_self g l₁)
    have ih' := ih (fun g' hg' => h₁ g' (List.mem_cons_of_mem g hg'))
    simp [check_report_go, hg, ih']

/-- C1: `check_report` is a first-match scan: if no live fire is unreported,
on screen and within both thresholds (`reportHit`), nothing changes; the
first fire satisfying all of it is marked reported, exactly one record is
appended, and the fires before and after it are untouched (the scan breaks). -/
theorem check_report_first_match (c : GameCtx) (fires : List Fire) (reports : List (ℤ × ℕ)) :
    ((∀ f ∈ fires, reportHit c f = false) → check_report c fires reports = (fires, reports))
    ∧ ∀ (l₁ : List Fire) (f : Fire) (l₂ : List Fire),
        fires = l₁ ++ f :: l₂ → (∀ g ∈ l₁, reportHit c g = false) → reportHit c f = true →
        check_report c fires reports =
          (l₁ ++ { f with reported := true } :: l₂,
           reports ++ [(cross_azimuth c.crosshair_x c.player_azimuth, c.crosshair_y)]) := by
  constructor
  · intro h
    unfold check_report
    rw [check_report_go_none c fires h]
    simp
  · intro l₁ f l₂ hsplit h₁ hf
    subst hsplit
    unfold check_report
    rw [check_report_go_found c l₁ f l₂ h₁ hf]
    simp

/-- Evaluation lemma: the shape of the hit test once the screen position is
known. -/
theorem reportHit_of_pos (c : GameCtx) (f : Fire) (fx fy : ℕ)
    (hpos : get_screen_pos c f c.player_azimuth = some (fx, fy)) :
    reportHit c f =
      (!f.reported
        && decide ((((f.azimuth : ℤ) - cross_azimuth c.crosshair_x c.player_azimuth
              + 180).emod 360 - 180).natAbs < 15)
        && decide (((fx : ℤ) - (c.crosshair_x : ℤ)) ^ 2
              + ((fy : ℤ) - (c.crosshair_y : ℤ)) ^ 2 < 2500)) := by
  unfold reportHit
  rw [hpos]

/-- Evaluation lemma: the aim bearing of `ctx0` (crosshair x = 400, bearing 0). -/
theorem cross_azimuth_400_0 : cross_azimuth 400 0 = 0 := by
  unfold cross_azimuth pyint
  norm_num

/-- Evaluation lemma: `fire0` passes the hit test under `ctx0`. -/
theorem reportHit_ctx0_fire0 : reportHit ctx0 fire0 = true := by
  rw [reportHit_of_pos ctx0 fire0 400 100 (by decide)]
  rw [show cross_azimuth ctx0.crosshair_x ctx0.player_azimuth = 0 from cross_azimuth_400_0]
  decide

/-- Witness for C1: under `ctx0` the single fire `fire0` is hit, marked, and
one record is appended. -/
theorem check_report_first_match_witness :
    check_report ctx0 [fire0] [] =
      ([{ fire0 with reported := true }],
       [(cross_azimuth ctx0.crosshair_x ctx0.player_azimuth, ctx0.crosshair_y)]) :=
  (check_report_first_match ctx0 [fire0] []).2 [] fire0 [] rfl
    (fun g hg => absurd hg (List.not_mem_nil g)) reportHit_ctx0_fire0

/-- C4: a fire whose `reported` flag is already true is left exactly as it is
by any later `check_report` call (the flag never goes back to false), and it
can never be the entity a new report is appended for, because the hit test
requires `not fire.reported`. -/
theorem check_report_reported_monotone (c : GameCtx) (fires : List Fire)
    (reports : List (ℤ × ℕ)) (i : ℕ) (f : Fire)
    (hget : fires.get? i = some f) (hrep : f.reported = true) :
    (check_report c fires reports).1.get? i = some f ∧ reportHit c f = false := by
  have hhit : reportHit c f = false := by
    unfold reportHit
    cases hp : get_screen_pos c f c.player_azimuth with
    | none => rfl
    | some p =>
      cases p with
      | mk fx fy => simp [hrep]
  refine ⟨?_, hhit⟩
  have key : ∀ (l : List Fire) (j : ℕ), l.get? j = some f →
      (check_report_go c l).1.get? j = some f := by
    intro l
    induction l with
    | nil => intro j h; simp at h
    | cons g gs ih =>
      intro j h
      by_cases hg : reportHit c g = true
      · simp only [check_report_go, hg, if_true]
        cases j with
        | zero =>
          simp only [List.get?_cons_zero, Option.some.injEq] at h
          subst h
          rw [hhit] at hg
          exact absurd hg (by simp)
        | succ n => simpa using h
      · rw [Bool.not_eq_true] at hg
        simp only [check_report_go, hg, Bool.false_eq_true, if_false]
        cases j with
        | zero => simpa using h
        | succ n =>
          simp only [List.get?_cons_succ] at h ⊢
          exact ih n h
  have hfst : (check_report c fires reports).1 = (check_report_go c fires).1 := rfl
  rw [hfst]
  exact key fires i hget

/-- An already-reported copy of `fire0`. -/
def fire2 : Fire := ⟨0, 100, 100, true, 1000, 0⟩

/-- Witness for C4: the reported fire `fire2` survives a `check_report` call
unchanged and fails the hit test. -/
theorem check_report_reported_monotone_witness :
    (check_report ctx0 [fire2] []).1.get? 0 = some fire2 ∧ reportHit ctx0 fire2 = false :=
  check_report_reported_monotone ctx0 [fire2] [] 0 fire2 rfl rfl

/-- Counterexample for C2: under `ctx0` (crosshair y = 100) a successful hit
appends the record `(0, 100)` whose second component is the crosshair's raw
y pixel coordinate, while the elevation in degrees for aim y = 100 is
`int((300 - 100) / (600 / 90)) = 30`; the source stores `cross_y` and only
prints the declination (line 320 vs 321). -/
theorem report_record_not_elevation :
    (check_report ctx0 [fire0] []).2 = [(0, 100)] ∧ (100 : ℤ) ≠ cross_elevation 100 := by
  constructor
  · have hgo : check_report_go ctx0 [fire0] = ([{ fire0 with reported := true }], true) := by
      simp [check_report_go, reportHit_ctx0_fire0]
    show (check_report ctx0 [fire0] []).2 = [(0, 100)]
    unfold check_report
    rw [hgo]
    simp
    exact ⟨cross_azimuth_400_0, rfl⟩
  · have h30 : cross_elevation 100 = 30 := by
      unfold cross_elevation pyint
      norm_num
    rw [h30]
    decide

/-- C2 (amended): on a successful hit exactly the pair
`(cross_azimuth, cross_y)` — aim bearing and raw aim y pixel — is appended
to the reports list; otherwise the list is unchanged: the list only ever
grows and existing records are never modified. -/
theorem reports_append_only (c : GameCtx) (fires : List Fire) (reports : List (ℤ × ℕ)) :
    (check_report c fires reports).2 = reports ∨
    (check_report c fires reports).2 =
      reports ++ [(cross_azimuth c.crosshair_x c.player_azimuth, c.crosshair_y)] := by
  unfold check_report
  by_cases h : (check_report_go c fires).2 = true
  · right
    simp [h]
  · left
    rw [Bool.not_eq_true] at h
    simp [h]

/-- Spawn-loop lemma: a spawned fire comes from one of the draws, built by
`Fire.__init__` with the current weather and clock. -/
theorem generate_fire_go_mem (c : GameCtx) (now : ℕ) :
    ∀ (n : ℕ) (ds : List Draw) (f : Fire), generate_fire_go c now n ds = some f →
      ∃ d ∈ ds, f = mkFire d.azimuth d.distance d.base_lifetime d.terrain_offset
        c.weather now := by
  intro n
  induction n with
  | zero => intro ds f h; simp [generate_fire_go] at h
  | succ n ih =>
    intro ds f h
    cases ds with
    | nil => simp [generate_fire_go] at h
    | cons d ds =>
      simp only [generate_fire_go] at h
      by_cases ht : has_terrain_at_azimuth d.azimuth
          (if d.distance = 100 then c.background_mid_mask else c.background_far_mask) 0 = true
      · rw [if_pos ht] at h
        simp only [Option.some.injEq] at h
        exact ⟨d, List.mem_cons_self d ds, h.symm⟩
      · rw [if_neg ht] at h
        obtain ⟨d', hd', hf⟩ := ih ds f h
        exact ⟨d', List.mem_cons_of_mem d hd', hf⟩

/-- Spawn-loop lemma: a spawned fire passed the terrain check on its own
layer-appropriate mask. -/
theorem generate_fire_go_terrain (c : GameCtx) (now : ℕ) :
    ∀ (n : ℕ) (ds : List Draw) (f : Fire), generate_fire_go c now n ds = some f →
      has_terrain_at_azimuth f.azimuth
        (if f.distance = 100 then c.background_mid_mask else c.background_far_mask) 0
        = true := by
  intro n
  induction n with
  | zero => intro ds f h; simp [generate_fire_go] at h
  | succ n ih =>
    intro ds f h
    cases ds with
    | nil => simp [generate_fire_go] at h
    | cons d ds =>
      simp only [generate_fire_go] at h
      by_cases ht : has_terrain_at_azimuth d.azimuth
          (if d.distance = 100 then c.background_mid_mask else c.background_far_mask) 0 = true
      · rw [if_pos ht] at h
        simp only [Option.some.injEq] at h
        subst h
        simpa [mkFire] using ht
      · rw [if_neg ht] at h
        exact ih ds f h

/-- Spawn-loop lemma: with fuel `n` only the first `n` draws matter. -/
theorem generate_fire_go_take (c : GameCtx) (now : ℕ) :
    ∀ (n : ℕ) (ds : List Draw),
      generate_fire_go c now n ds = generate_fire_go c now n (ds.take n) := by
  intro n
  induction n with
  | zero => intro ds; rfl
  | succ n ih =>
    intro ds
    cases ds with
    | nil => rfl
    | cons d ds =>
      simp only [List.take_succ_cons, generate_fire_go]
      rw [ih ds]

/-- C9: a `generate_fire` call either leaves the live list unchanged (the
retry bound of 20 was exhausted or the stream ran out; never an error), or
appends exactly one fire that passed `has_terrain_at_azimuth` on its
layer-appropriate mask at spawn time; and at most 20 attempts are consumed. -/
theorem generate_fire_spec (c : GameCtx) (now : ℕ) (draws : List Draw) (fires : List Fire) :
    (generate_fire c now draws fires = generate_fire c now (draws.take 20) fires)
    ∧ (generate_fire c now draws fires = fires
       ∨ ∃ f, generate_fire c now draws fires = fires ++ [f]
           ∧ has_terrain_at_azimuth f.azimuth
               (if f.distance = 100 then c.background_mid_mask else c.background_far_mask) 0
               = true) := by
  constructor
  · unfold generate_fire
    rw [generate_fire_go_take c now 20 draws]
  · cases hgo : generate_fire_go c now 20 draws with
    | none =>
      left
      unfold generate_fire
      rw [hgo]
    | some f =>
      right
      refine ⟨f, ?_, generate_fire_go_terrain c now 20 draws f hgo⟩
      unfold generate_fire
      rw [hgo]

/-- C7 (amended): every fire a spawn call appends has
`lifetime = base_lifetime * weather multiplier` for a base drawn by
`random.randint(10000, 50000)` — the closed interval `[10000, 50000]`, since
Python's `randint` includes both endpoints — with multipliers Rainy 0.5,
Windy 1.5, Hot 2.0, Clear 1. -/
theorem lifetime_scaled (c : GameCtx) (now : ℕ) (draws : List Draw) (fires : List Fire)
    (hv : ∀ d ∈ draws, DrawValid d) :
    (∀ f ∈ generate_fire c now draws fires, f ∈ fires ∨
       ∃ d ∈ draws, 10000 ≤ d.base_lifetime ∧ d.base_lifetime ≤ 50000 ∧
         f.lifetime = (d.base_lifetime : ℚ) * weather_lifetime_mult c.weather)
    ∧ weather_lifetime_mult Weather.Rainy = 0.5
    ∧ weather_lifetime_mult Weather.Windy = 1.5
    ∧ weather_lifetime_mult Weather.Hot = 2.0
    ∧ weather_lifetime_mult Weather.Clear = 1 := by
  refine ⟨?_, rfl, rfl, rfl, rfl⟩
  intro f hf
  unfold generate_fire at hf
  cases hgo : generate_fire_go c now 20 draws with
  | none =>
    rw [hgo] at hf
    exact Or.inl hf
  | some g =>
    rw [hgo] at hf
    rcases List.mem_append.mp hf with hmem | hmem
    · exact Or.inl hmem
    · right
      obtain ⟨d, hd, hg⟩ := generate_fire_go_mem c now 20 draws g hgo
      have hfd : f = g := List.mem_singleton.mp hmem
      obtain ⟨-, -, hb1, hb2, -⟩ := hv d hd
      exact ⟨d, hd, hb1, hb2, by rw [hfd, hg]; rfl⟩

/-- Every column of the all-dark mask has terrain. -/
theorem has_terrain_darkMask (az pa : ℕ) : has_terrain_at_azimuth az darkMask pa = true := by
  unfold has_terrain_at_azimuth darkMask
  simp [pixel_sum]

/-- Hot-weather frame state over the dark masks. -/
def ctxHot : GameCtx := ⟨darkMask, darkMask, Weather.Hot, 0, 400, 100⟩

/-- One spawn attempt drawing base lifetime 20000 on the mid layer. -/
def draw1 : Draw := ⟨0, 100, 20000, 0⟩

/-- One spawn attempt drawing the maximal base lifetime 50000 (legal for
Python's inclusive `randint(10000, 50000)`) on the mid layer. -/
def draw0 : Draw := ⟨0, 100, 50000, 0⟩

/-- Evaluation lemma: over a dark mid mask a single mid-layer attempt spawns
its fire immediately. -/
theorem generate_fire_single_dark (c : GameCtx) (now : ℕ) (d : Draw)
    (hmid : c.background_mid_mask = darkMask) (hdist : d.distance = 100) :
    generate_fire c now [d] []
      = [mkFire d.azimuth d.distance d.base_lifetime d.terrain_offset c.weather now] := by
  have hter : has_terrain_at_azimuth d.azimuth
      (if d.distance = 100 then c.background_mid_mask else c.background_far_mask) 0 = true := by
    rw [if_pos hdist, hmid]
    exact has_terrain_darkMask d.azimuth 0
  have hgo : generate_fire_go c now 20 [d]
      = some (mkFire d.azimuth d.distance d.base_lifetime d.terrain_offset c.weather now) := by
    show generate_fire_go c now (19 + 1) (d :: []) = _
    simp only [generate_fire_go]
    rw [if_pos hter]
  unfold generate_fire
  rw [hgo]
  rfl

/-- Witness for C7: in hot weather a spawned fire's lifetime is its drawn
base (20000) times the hot multiplier. -/
theorem lifetime_scaled_witness :
    mkFire 0 100 20000 0 Weather.Hot 0 ∈ ([] : List Fire) ∨
    ∃ d ∈ [draw1], 10000 ≤ d.base_lifetime ∧ d.base_lifetime ≤ 50000 ∧
      (mkFire 0 100 20000 0 Weather.Hot 0).lifetime =
        (d.base_lifetime : ℚ) * weather_lifetime_mult ctxHot.weather :=
  (lifetime_scaled ctxHot 0 [draw1] [] (by decide)).1
    (mkFire 0 100 20000 0 Weather.Hot 0)
    (by rw [generate_fire_single_dark ctxHot 0 draw1 rfl rfl]
        exact List.mem_singleton_self _)

/-- Counterexample for C7: `random.randint(10000, 50000)` includes 50000, so
a run whose draw is exactly 50000 spawns (in clear weather) a fire of
lifetime 50000 = 50000 × 1.0; its base is not in the claimed half-open
interval `[10000, 50000)`. -/
theorem lifetime_interval_cex :
    DrawValid draw0
    ∧ generate_fire ctx0 0 [draw0] [] = [mkFire 0 100 50000 0 Weather.Clear 0]
    ∧ (mkFire 0 100 50000 0 Weather.Clear 0).lifetime = 50000
    ∧ ¬ (mkFire 0 100 50000 0 Weather.Clear 0).lifetime
          / weather_lifetime_mult Weather.Clear < 50000 := by
  refine ⟨by decide, ?_, ?_, ?_⟩
  · rw [generate_fire_single_dark ctx0 0 draw0 rfl rfl]
    rfl
  · norm_num [mkFire, weather_lifetime_mult]
  · norm_num [mkFire, weather_lifetime_mult]

/-- C5: `get_screen_pos` returns `None` exactly when the signed shortest-path
difference Δ between the entity bearing and the view bearing satisfies
`|Δ| > 75 = FOV/2` (the bearing lies strictly outside the 150° window),
and otherwise a defined pair whose x is `floor((Δ + FOV/2) / FOV * 800)`. -/
theorem screen_pos_spec (c : GameCtx) (f : Fire) (pa : ℕ) :
    (get_screen_pos c f pa = none ↔ 75 < (rel_angle f.azimuth pa).natAbs)
    ∧ ∀ x y, get_screen_pos c f pa = some (x, y) →
        (x : ℤ) = ⌊(((rel_angle f.azimuth pa : ℤ) : ℚ) + 75) / 150 * 800⌋ := by
  constructor
  · by_cases h : 75 < (rel_angle f.azimuth pa).natAbs
    · simp [get_screen_pos, h]
    · simp [get_screen_pos, h]
  · intro x y hxy
    by_cases h : 75 < (rel_angle f.azimuth pa).natAbs
    · simp [get_screen_pos, h] at hxy
    · unfold get_screen_pos at hxy
      rw [if_neg h] at hxy
      simp only [Option.some.injEq, Prod.mk.injEq] at hxy
      obtain ⟨hx, -⟩ := hxy
      subst hx
      set Δ := rel_angle f.azimuth pa with hdel
      have hnn : 0 ≤ Δ + 75 := by omega
      have h1 : (((Δ + 75).toNat * 800 / 150 : ℕ) : ℤ) = (Δ + 75) * 800 / 150 := by
        have h0 : (((Δ + 75).toNat * 800 / 150 : ℕ) : ℤ)
            = (((Δ + 75).toNat : ℤ) * 800) / 150 := by
          exact_mod_cast rfl
        rw [h0, Int.toNat_of_nonneg hnn]
      have h2 : ⌊((Δ : ℚ) + 75) / 150 * 800⌋ = (Δ + 75) * 800 / 150 := by
        have harg : ((Δ : ℚ) + 75) / 150 * 800 = (((Δ + 75) * 800 : ℤ) : ℚ) / ((150 : ℕ) : ℚ) := by
          push_cast
          ring
        rw [harg, Rat.floor_intCast_div_natCast]
        norm_num
      rw [h1, ← h2]

/-- Witness for C5: `fire0` dead ahead appears at x = 400 = ⌊75/150·800⌋. -/
theorem screen_pos_spec_witness :
    ((400 : ℕ) : ℤ) = ⌊(((rel_angle fire0.azimuth 0 : ℤ) : ℚ) + 75) / 150 * 800⌋ :=
  (screen_pos_spec ctx0 fire0 0).2 400 100 (by decide)

/-- Formalisation of the spec's own words for the aim bearing —
`floor(aimX/screenWidth * FOV + (viewBearing - FOV/2)) mod 360` with a true
floor — for comparison against `cross_azimuth`, which models the code's
`int()` truncation toward zero. -/
def spec_aim_bearing (cx player_azimuth : ℕ) : ℤ :=
  (⌊(cx : ℚ) / 800 * 150 + ((player_azimuth : ℚ) - 75)⌋).emod 360

/-- Counterexample for C3: at aim x = 1 and view bearing 0 the argument is
`1/800·150 - 75 = -74.8125`; the code truncates toward zero,
`int(-74.8125) % 360 = -74 % 360 = 286`, while the spec's floor formula gives
`⌊-74.8125⌋ % 360 = -75 % 360 = 285`. -/
theorem aim_bearing_floor_cex : cross_azimuth 1 0 ≠ spec_aim_bearing 1 0 := by
  have harg : ((1 : ℕ) : ℚ) / 800 * 150 + (((0 : ℕ) : ℚ) - 75) = -1197 / 16 := by
    norm_num
  have h1 : cross_azimuth 1 0 = 286 := by
    unfold cross_azimuth
    rw [harg]
    have hp : pyint (-1197 / 16) = -74 := by
      unfold pyint
      rw [if_pos (by norm_num)]
      norm_num
    rw [hp]
    decide
  have h2 : spec_aim_bearing 1 0 = 285 := by
    unfold spec_aim_bearing
    rw [harg]
    have hf : ⌊(-1197 / 16 : ℚ)⌋ = -75 := by norm_num
    rw [hf]
    decide
  rw [h1, h2]
  decide

/-- C3 (amended): the aim bearing used by the UI status line and by
`check_report` (one shared definition; the two source lines are identical) is
`int(aimX/800·150 + (viewBearing − 75)) mod 360` where `int` truncates toward
zero; it always lies in `[0, 360)`; it agrees with the spec's floor formula
whenever the pre-modulo argument is nonnegative, e.g. for any view bearing
≥ 75°; and the displayed elevation is `int((300 − aimY)/(600/90))`, agreeing
with the floor form whenever `aimY ≤ 300`. -/
theorem aim_formulas (cx pa cy : ℕ) :
    cross_azimuth cx pa = (pyint ((cx : ℚ) / 800 * 150 + ((pa : ℚ) - 75))).emod 360
    ∧ 0 ≤ cross_azimuth cx pa ∧ cross_azimuth cx pa < 360
    ∧ (75 ≤ pa → cross_azimuth cx pa = spec_aim_bearing cx pa)
    ∧ cross_elevation cy = pyint (((300 : ℚ) - (cy : ℚ)) / (600 / 90))
    ∧ (cy ≤ 300 → cross_elevation cy = ⌊((300 : ℚ) - (cy : ℚ)) / (600 / 90)⌋) := by
  refine ⟨rfl, ?_, ?_, ?_, rfl, ?_⟩
  · exact Int.emod_nonneg _ (by norm_num)
  · exact Int.emod_lt_of_pos _ (by norm_num)
  · intro h75
    have hq : 0 ≤ (cx : ℚ) / 800 * 150 + ((pa : ℚ) - 75) := by
      have h1 : (0 : ℚ) ≤ (cx : ℚ) / 800 * 150 := by positivity
      have h2 : (75 : ℚ) ≤ (pa : ℚ) := by exact_mod_cast h75
      linarith
    unfold cross_azimuth spec_aim_bearing
    rw [pyint_of_nonneg hq]
  · intro hcy
    have hq : 0 ≤ ((300 : ℚ) - (cy : ℚ)) / (600 / 90) := by
      have h1 : (cy : ℚ) ≤ 300 := by exact_mod_cast hcy
      have h2 : (0 : ℚ) < 600 / 90 := by norm_num
      apply div_nonneg (by linarith) (le_of_lt h2)
    unfold cross_elevation
    rw [pyint_of_nonneg hq]

/-- Witness for C3 (amended): at view bearing 80 ≥ 75 the truncation and the
floor agree, and at aim y = 100 ≤ 300 the elevation is the floor form. -/
theorem aim_formulas_witness :
    cross_azimuth 400 80 = spec_aim_bearing 400 80
    ∧ cross_elevation 100 = ⌊((300 : ℚ) - ((100 : ℕ) : ℚ)) / (600 / 90)⌋ :=
  ⟨(aim_formulas 400 80 100).2.2.2.1 (by decide),
   (aim_formulas 400 80 100).2.2.2.2.2 (by decide)⟩
